import Mathlib

/-
Verification development for the Noise secure-channel layer
(js-libp2p-noise).  The definitions below are a shallow embedding of
src/noise.ts and src/keycache.ts; collaborators of the repository whose
implementation files are not part of the source tree (the handshake
pattern classes, utils.ts and the protobuf payload codec) are modelled
from the specification and are marked as such in their doc comments.
-/

set_option linter.unusedVariables false

/-! ## Basic data model -/

/-- Byte strings (the `bytes` / Buffer type of the source) are modelled as
lists of naturals; encoders only ever produce entries below 256. -/
abbrev Bytes := List Nat

/-- A libp2p peer identifier: the source only ever reads its `id` byte
field (`peerId.id`), so the model carries exactly that. -/
structure PeerId where
  id : Bytes
deriving DecidableEq

/-- A Noise keypair, as in src/@types/basic: 32-byte private and public
X25519 keys. -/
structure KeyPair where
  privateKey : Bytes
  publicKey : Bytes
deriving DecidableEq

instance {ε α : Type} [DecidableEq ε] [DecidableEq α] : DecidableEq (Except ε α) := fun a b =>
  match a, b with
  | .ok x, .ok y =>
      decidable_of_iff (x = y) (by constructor <;> intro h <;> [exact h ▸ rfl; exact Except.ok.inj h])
  | .error x, .error y =>
      decidable_of_iff (x = y) (by constructor <;> intro h <;> [exact h ▸ rfl; exact Except.error.inj h])
  | .ok _, .error _ => isFalse (by intro h; exact Except.noConfusion h)
  | .error _, .ok _ => isFalse (by intro h; exact Except.noConfusion h)

/-! ## X25519 (external collaborator)

The source derives the static public key with bcrypto's
`x25519.publicKeyCreate`.  bcrypto is an external library; the function is
modelled here directly from RFC 7748 (scalar clamping followed by the
Montgomery ladder on the base point u = 9). -/

/-- The field prime of Curve25519. -/
def P25519 : Nat := 2 ^ 255 - 19

/-- Field addition modulo `P25519`. -/
def fadd (a b : Nat) : Nat := (a + b) % P25519

/-- Field subtraction modulo `P25519`. -/
def fsub (a b : Nat) : Nat := (a % P25519 + (P25519 - b % P25519)) % P25519

/-- Field multiplication modulo `P25519`. -/
def fmul (a b : Nat) : Nat := a * b % P25519

/-- Field exponentiation by square and multiply. -/
def fpow (b : Nat) (e : Nat) : Nat :=
  if h : e = 0 then 1
  else
    let r := fpow (fmul b b) (e / 2)
    if e % 2 = 1 then fmul b r else r
termination_by e
decreasing_by exact Nat.div_lt_self (Nat.pos_of_ne_zero h) (by omega)

/-- Field inverse via Fermat's little theorem, as in RFC 7748. -/
def finv (a : Nat) : Nat := fpow a (P25519 - 2)

/-- Little-endian interpretation of a byte string as a natural number. -/
def decodeLittleEndian (bs : Bytes) : Nat :=
  bs.foldr (fun b acc => b % 256 + 256 * acc) 0

/-- RFC 7748 scalar clamping: clear the three low bits, clear bit 255 and
set bit 254. -/
def clampScalar (n : Nat) : Nat :=
  (n / 8 * 8 % 2 ^ 255) % 2 ^ 254 + 2 ^ 254

/-- One step of the RFC 7748 Montgomery ladder; the state is
`(x2, z2, x3, z3, swap)` and `kt` is the current scalar bit. -/
def ladderStep (x1 : Nat) (st : Nat × Nat × Nat × Nat × Bool) (kt : Bool) :
    Nat × Nat × Nat × Nat × Bool :=
  let (x2, z2, x3, z3, swap) := st
  let sw := xor swap kt
  let x2' := if sw then x3 else x2
  let x3' := if sw then x2 else x3
  let z2' := if sw then z3 else z2
  let z3' := if sw then z2 else z3
  let A := fadd x2' z2'
  let AA := fmul A A
  let B := fsub x2' z2'
  let BB := fmul B B
  let E := fsub AA BB
  let C := fadd x3' z3'
  let D := fsub x3' z3'
  let DA := fmul D A
  let CB := fmul C B
  let s := fadd DA CB
  let d := fsub DA CB
  (fmul AA BB, fmul E (fadd AA (fmul 121665 E)), fmul s s, fmul x1 (fmul d d), kt)

/-- The RFC 7748 X25519 function on a clamped scalar `k` and u-coordinate
`u`: 255 ladder steps from the top bit down, final conditional swap, and
projective-to-affine conversion. -/
def x25519Ladder (k : Nat) (u : Nat) : Nat :=
  let x1 := u % P25519
  let final := (List.range 255).foldl
    (fun st i => ladderStep x1 st ((k / 2 ^ (254 - i)) % 2 = 1)) (1, 0, x1, 1, false)
  let (x2, z2, x3, z3, swap) := final
  let x2f := if swap then x3 else x2
  let z2f := if swap then z3 else z2
  fmul x2f (finv z2f)

/-- Little-endian encoding of a field element as 32 bytes. -/
def encodeUCoordinate (n : Nat) : Bytes :=
  (List.range 32).map (fun i => n / 256 ^ i % 256)

/-- Modelled from RFC 7748: bcrypto's `x25519.publicKeyCreate` (an external
collaborator of src/noise.ts) — X25519 base-point scalar multiplication of
the clamped private scalar with the base point u = 9. -/
def x25519PublicKeyCreate (priv : Bytes) : Bytes :=
  encodeUCoordinate (x25519Ladder (clampScalar (decodeLittleEndian priv)) 9)

/-- Modelled from the spec: `generateKeypair` (src/utils.ts, which is not
part of the provided sources) generates a fresh X25519 keypair; the
`entropy` argument stands for the randomness the implementation draws, and
the public key is derived from the private key by base-point scalar
multiplication. -/
def generateKeypair (entropy : Bytes) : KeyPair :=
  { privateKey := entropy, publicKey := x25519PublicKeyCreate entropy }

/-! ## Key cache (src/keycache.ts) -/

namespace Keycache

/-- The `storage` member of the `Keycache` class: a map from the `id`
bytes of a peer to its cached Noise static public key, modelled as a
function to `Option` (a JS `Map` observed only through `get`, `set` and
`clear`). -/
def Storage := Bytes → Option Bytes

/-- The freshly constructed cache: `new Map()` holds no entry. -/
def initialStorage : Storage := fun _ => none

/-- `Keycache.store(peerId, key)`: `this.storage.set(peerId.id, key)`. -/
def store (st : Storage) (peerId : PeerId) (key : Bytes) : Storage :=
  fun q => if q = peerId.id then some key else st q

/-- `Keycache.load(peerId)`: `this.storage.get(peerId.id)`. -/
def load (st : Storage) (peerId : PeerId) : Option Bytes := st peerId.id

/-- `Keycache.resetStorage()`: `this.storage.clear()`. -/
def resetStorage (_st : Storage) : Storage := fun _ => none

/-- `KeyCache.load(x)` where `x` may be `undefined`: accessing `peerId.id`
on `undefined` throws a `TypeError` in JavaScript, so the lookup of an
absent peer argument is an error, not a miss. -/
def loadChecked (st : Storage) (peerId : Option PeerId) : Except Unit (Option Bytes) :=
  match peerId with
  | none => .error ()
  | some p => .ok (load st p)

end Keycache

/-! ## Handshake driver model (src/noise.ts)

The three handshake pattern classes (src/handshake-xx.ts,
src/handshake-ik.ts, src/handshake-xx-fallback.ts) are not part of the
provided sources; their stage outcomes depend on the bytes exchanged with
the remote peer, so they are modelled from the spec as draws from an
environment (`World`), with the identity verification step of spec 4.5
made explicit.  Everything else below mirrors the control flow of
src/noise.ts line by line. -/

/-- Which Noise pattern a handshake attempt uses. -/
inductive NoisePattern where
  | ik : NoisePattern
  | xx : NoisePattern
  | xxFallback : NoisePattern
deriving DecidableEq

/-- What a completed handshake yields about the remote side: the identity
carried by the decrypted payload and the remote Noise static public key
(`getRemoteStaticKey`). -/
structure RawHandshakeResult where
  remoteIdentity : PeerId
  remoteStaticKey : Bytes
deriving DecidableEq

/-- The data an IK failure carries: the error message and the raw bytes of
the initial IK message, stashed on the thrown error object
(`e.initialMsg` in src/noise.ts). -/
structure IKFailureData where
  message : String
  initialMsg : Bytes
deriving DecidableEq

/-- The environment of one `performHandshake` call: the outcomes the
remote peer and the wire would produce for each pattern attempt, the raw
first message of an IK attempt, and the ephemeral keys the IK handshake
object exposes (`getRemoteEphemeralKeys`). -/
structure World where
  ikOutcome : Except String RawHandshakeResult
  ikInitialMsg : Bytes
  ikEphemeralKeys : KeyPair
  xxOutcome : Except String RawHandshakeResult
  xxFallbackOutcome : Except String RawHandshakeResult

/-- Modelled from the spec: the payload-verification step (spec 4.5) the
pattern classes run on the decrypted handshake payload — the identity it
carries must match the expected remote peer, otherwise the stage fails. -/
def checkRemoteIdentity (expected : PeerId) (r : RawHandshakeResult) :
    Except String RawHandshakeResult :=
  if r.remoteIdentity = expected then .ok r else .error "invalid remote peer"

/-- Modelled from the spec: running `stage0`/`stage1` of the IK handshake
class (src/handshake-ik.ts, not in the provided sources).  The stage
outcome is drawn from the environment; any failure carries the initial
message bytes of the attempt. -/
def runIKStages (w : World) (expected : PeerId) :
    Except IKFailureData RawHandshakeResult :=
  match w.ikOutcome with
  | .error m => .error { message := m, initialMsg := w.ikInitialMsg }
  | .ok r =>
    match checkRemoteIdentity expected r with
    | .error m => .error { message := m, initialMsg := w.ikInitialMsg }
    | .ok r' => .ok r'

/-- Modelled from the spec: `propose`/`exchange`/`finish` of the XX
handshake class (src/handshake-xx.ts, not in the provided sources). -/
def runXXStages (w : World) (expected : PeerId) :
    Except String RawHandshakeResult :=
  match w.xxOutcome with
  | .error m => .error m
  | .ok r => checkRemoteIdentity expected r

/-- Modelled from the spec: `propose`/`exchange`/`finish` of the
XXfallback handshake class (src/handshake-xx-fallback.ts, not in the
provided sources). -/
def runXXFallbackStages (w : World) (expected : PeerId) :
    Except String RawHandshakeResult :=
  match w.xxFallbackOutcome with
  | .error m => .error m
  | .ok r => checkRemoteIdentity expected r

/-- The inputs from which the XXfallback handshake object is constructed
in src/noise.ts: the initial message of the failed IK attempt, and (on
the initiator side) the ephemeral keys of that attempt. -/
structure FallbackInputs where
  initialMsg : Bytes
  ephemeralKeys : Option KeyPair
deriving DecidableEq

/-- The result `performHandshake` hands to `createSecureConnection`: the
pattern that completed, what the handshake authenticated, and — for an
XXfallback completion — the inputs the fallback was constructed from. -/
structure HandshakeResult where
  pattern : NoisePattern
  remoteIdentity : PeerId
  remoteStaticKey : Bytes
  fallback : Option FallbackInputs
deriving DecidableEq

/-- The errors `performHandshake` can surface, matching the throw sites of
src/noise.ts:  the JS `TypeError` from `KeyCache.load(undefined)`
dereferencing `.id`, the explicit
`new Error("Remote static key should be initialized.")`, and the wrapped
XX / XXfallback stage failures. -/
inductive HandshakeError where
  | typeErrorUndefinedRemote : HandshakeError
  | remoteStaticKeyUninitialized : HandshakeError
  | xxHandshakeFailed (message : String) : HandshakeError
  | xxFallbackFailed (message : String) : HandshakeError
deriving DecidableEq

/-- The `HandshakeParams` record of src/noise.ts (the connection itself is
absorbed into `World`).  `remotePeer` is an `Option` because JavaScript
lets the caller omit the argument. -/
structure HandshakeParams where
  isInitiator : Bool
  localPeer : PeerId
  remotePeer : Option PeerId

/-- The Noise class instance state set up by the constructor of
src/noise.ts. -/
structure NoiseInstance where
  protocol : String
  prologue : Bytes
  staticKeys : KeyPair
  earlyData : Bytes
  useNoisePipes : Bool

/-- Byte serialization of an ASCII string, as `Buffer.from` produces for
the protocol name. -/
def strBytes (s : String) : Bytes := s.toList.map Char.toNat

/-- The constructor of the `Noise` class
(`constructor(staticNoiseKey?, earlyData?, useNoisePipes = true)`):
a provided static key is kept and its public key derived via
`x25519.publicKeyCreate`; otherwise a fresh keypair is generated (the
`entropy` argument stands for the randomness `generateKeypair` draws). -/
def mkNoise (staticNoiseKey : Option Bytes) (earlyData : Option Bytes)
    (useNoisePipes : Option Bool) (entropy : Bytes) : NoiseInstance :=
  { protocol := "/noise"
    prologue := strBytes "/noise"
    earlyData := earlyData.getD []
    useNoisePipes := useNoisePipes.getD true
    staticKeys :=
      match staticNoiseKey with
      | some k => { privateKey := k, publicKey := x25519PublicKeyCreate k }
      | none => generateKeypair entropy }

/-- Modelled from the spec: `getPayload` (src/utils.ts, not in the
provided sources) builds the signed handshake payload from the local
peer, the static public key and the early data; the driver only threads
it through, so the model keeps it opaque. -/
structure SignedPayload where
  localPeer : PeerId
  staticPublicKey : Bytes
  earlyData : Bytes

/-- Modelled from the spec: construction of the signed handshake payload
passed to every pattern class. -/
def getPayload (localPeer : PeerId) (staticPublicKey : Bytes) (earlyData : Bytes) :
    SignedPayload :=
  { localPeer := localPeer, staticPublicKey := staticPublicKey, earlyData := earlyData }

/-- `Noise.performXXFallbackHandshake`: builds the XXfallback handshake
object from the stashed initial message and (initiator only) ephemeral
keys, runs its three phases, and wraps any failure in
"Error occurred during XX Fallback handshake: ...". -/
def performXXFallbackHandshake (w : World) (isInitiator : Bool) (remotePeer : PeerId)
    (payload : SignedPayload) (initialMsg : Bytes) (ephemeralKeys : Option KeyPair) :
    Except HandshakeError HandshakeResult :=
  match runXXFallbackStages w remotePeer with
  | .ok r =>
    .ok { pattern := .xxFallback
          remoteIdentity := r.remoteIdentity
          remoteStaticKey := r.remoteStaticKey
          fallback := some { initialMsg := initialMsg, ephemeralKeys := ephemeralKeys } }
  | .error m =>
    .error (.xxFallbackFailed ("Error occurred during XX Fallback handshake: " ++ m))

/-- `Noise.performXXHandshake`: runs the XX phases; on success and with
noise pipes enabled, stores the remote static key in the cache keyed by
`remotePeer`; wraps any failure in
"Error occurred during XX handshake: ...". -/
def performXXHandshake (w : World) (n : NoiseInstance) (cache : Keycache.Storage)
    (remotePeer : PeerId) (payload : SignedPayload) :
    Except HandshakeError HandshakeResult × Keycache.Storage :=
  match runXXStages w remotePeer with
  | .ok r =>
    let cache' := if n.useNoisePipes then Keycache.store cache remotePeer r.remoteStaticKey
                  else cache
    (.ok { pattern := .xx
           remoteIdentity := r.remoteIdentity
           remoteStaticKey := r.remoteStaticKey
           fallback := none }, cache')
  | .error m =>
    (.error (.xxHandshakeFailed ("Error occurred during XX handshake: " ++ m)), cache)

/-- `Noise.performIKHandshake`: runs `stage0` and `stage1` with no local
error handling. -/
def performIKHandshake (w : World) (remotePeer : PeerId) :
    Except IKFailureData RawHandshakeResult :=
  runIKStages w remotePeer

/-- `Noise.performHandshake`: the pattern selector of src/noise.ts.
Returns the handshake outcome, the cache after the call, and the list of
patterns attempted, in order. -/
def performHandshake (n : NoiseInstance) (w : World) (cache : Keycache.Storage)
    (params : HandshakeParams) :
    Except HandshakeError HandshakeResult × Keycache.Storage × List NoisePattern :=
  let payload := getPayload params.localPeer n.staticKeys.publicKey n.earlyData
  match params.remotePeer with
  | none =>
    -- KeyCache.load(params.remotePeer) dereferences `.id` on undefined.
    (.error .typeErrorUndefinedRemote, cache, [])
  | some remotePeer =>
    let foundRemoteStaticKey := Keycache.load cache remotePeer
    let tryIK0 := n.useNoisePipes
    let tryIK := if tryIK0 && params.isInitiator && foundRemoteStaticKey.isNone
                 then false else tryIK0
    if tryIK then
      match foundRemoteStaticKey with
      | none => (.error .remoteStaticKeyUninitialized, cache, [])
      | some _remoteStatic =>
        match performIKHandshake w remotePeer with
        | .ok r =>
          (.ok { pattern := .ik
                 remoteIdentity := r.remoteIdentity
                 remoteStaticKey := r.remoteStaticKey
                 fallback := none }, cache, [.ik])
        | .error f =>
          let ephemeralKeys := if params.isInitiator then some w.ikEphemeralKeys else none
          (performXXFallbackHandshake w params.isInitiator remotePeer payload
             f.initialMsg ephemeralKeys, cache, [.ik, .xxFallback])
    else
      let res := performXXHandshake w n cache remotePeer payload
      (res.1, res.2, [.xx])

/-- The secured duplex `createSecureConnection` returns, reduced to the
handshake session it encrypts with. -/
structure SecuredConn where
  handshake : HandshakeResult
deriving DecidableEq

/-- `Noise.createSecureConnection`: wraps the completed handshake into the
user end of the encryption pipeline. -/
def createSecureConnection (handshake : HandshakeResult) : SecuredConn :=
  { handshake := handshake }

/-- The `SecureOutbound` record `{ conn, remotePeer }` both entry points
return; `remotePeer` is the field as the source populates it. -/
structure SecureOutboundResult where
  conn : SecuredConn
  remotePeer : Option PeerId
deriving DecidableEq

/-- `Noise.secureOutbound(localPeer, connection, remotePeer)`: handshake
as initiator, then return the secured duplex together with the
`remotePeer` argument. -/
def secureOutbound (n : NoiseInstance) (w : World) (cache : Keycache.Storage)
    (localPeer : PeerId) (remotePeer : Option PeerId) :
    Except HandshakeError SecureOutboundResult × Keycache.Storage :=
  let res := performHandshake n w cache
    { isInitiator := true, localPeer := localPeer, remotePeer := remotePeer }
  match res.1 with
  | .ok hs => (.ok { conn := createSecureConnection hs, remotePeer := remotePeer }, res.2.1)
  | .error e => (.error e, res.2.1)

/-- `Noise.secureInbound(localPeer, connection, remotePeer)`: handshake
as responder, then return the secured duplex together with the
`remotePeer` argument. -/
def secureInbound (n : NoiseInstance) (w : World) (cache : Keycache.Storage)
    (localPeer : PeerId) (remotePeer : Option PeerId) :
    Except HandshakeError SecureOutboundResult × Keycache.Storage :=
  let res := performHandshake n w cache
    { isInitiator := false, localPeer := localPeer, remotePeer := remotePeer }
  match res.1 with
  | .ok hs => (.ok { conn := createSecureConnection hs, remotePeer := remotePeer }, res.2.1)
  | .error e => (.error e, res.2.1)

/-! ## Handshake payload codec

Only the declaration file of the payload codec is part of the provided
sources; the codec itself is modelled from spec section 6: standard
protobuf encoding with fixed field numbers, unknown fields ignored on
decode. -/

/-- Protobuf base-128 varint encoding of a natural number,
least-significant group first, high bit marking continuation. -/
def varintEnc (n : Nat) : List Nat :=
  if h : n < 128 then [n]
  else (n % 128 + 128) :: varintEnc (n / 128)
termination_by n
decreasing_by exact Nat.div_lt_self (by omega) (by omega)

/-- Protobuf varint decoding; returns the value and the remaining bytes. -/
def varintDec : List Nat → Option (Nat × List Nat)
  | [] => none
  | b :: rest =>
    if b < 128 then some (b, rest)
    else
      match varintDec rest with
      | none => none
      | some (m, r) => some (b % 128 + 128 * m, r)

/-- Length-delimited protobuf field body: varint length then the bytes. -/
def lenEnc (bs : List Nat) : List Nat := varintEnc bs.length ++ bs

/-- Reads a length-delimited field body; returns it and the rest. -/
def lenDec (l : List Nat) : Option (List Nat × List Nat) :=
  match varintDec l with
  | none => none
  | some (n, r) => if n ≤ r.length then some (r.take n, r.drop n) else none

/-- Skips the body of an unknown protobuf field given its wire type, per
the rule that unknown fields are ignored on decode. -/
def skipField (wireType : Nat) (l : List Nat) : Option (List Nat) :=
  if wireType = 0 then (varintDec l).map (·.2)
  else if wireType = 1 then (if 8 ≤ l.length then some (l.drop 8) else none)
  else if wireType = 2 then (lenDec l).map (·.2)
  else if wireType = 5 then (if 4 ≤ l.length then some (l.drop 4) else none)
  else none

/-- The `NoiseExtensions` message: `repeated bytes webtransport_certhashes = 1`. -/
structure NoiseExtensions where
  webtransportCerthashes : List (List Nat)
deriving DecidableEq

namespace NoiseExtensions

/-- Modelled from the spec: protobuf encoding of `NoiseExtensions` — one
length-delimited field with tag `1 << 3 | 2 = 10` per repeated element. -/
def encode (obj : NoiseExtensions) : List Nat :=
  (obj.webtransportCerthashes.map (fun b => 10 :: lenEnc b)).flatten

/-- Field loop of the `NoiseExtensions` decoder; `fuel` bounds the number
of fields and is consumed one unit per field read. -/
def decodeLoop : Nat → List Nat → List (List Nat) → Option NoiseExtensions
  | _, [], acc => some { webtransportCerthashes := acc }
  | 0, _ :: _, _ => none
  | fuel + 1, b :: rest, acc =>
    match varintDec (b :: rest) with
    | none => none
    | some (tag, r) =>
      if tag = 10 then
        match lenDec r with
        | none => none
        | some (bs, r') => decodeLoop fuel r' (acc ++ [bs])
      else
        match skipField (tag % 8) r with
        | none => none
        | some r' => decodeLoop fuel r' acc

/-- Modelled from the spec: protobuf decoding of `NoiseExtensions`;
unknown fields are skipped, malformed input is an error. -/
def decode (l : List Nat) : Option NoiseExtensions :=
  decodeLoop (l.length + 1) l []

end NoiseExtensions

/-- The `NoiseHandshakePayload` message:
`bytes identity_key = 1; bytes identity_sig = 2; NoiseExtensions extensions = 4`. -/
structure NoiseHandshakePayload where
  identityKey : List Nat
  identitySig : List Nat
  extensions : Option NoiseExtensions
deriving DecidableEq

namespace NoiseHandshakePayload

/-- Modelled from the spec: protobuf encoding of `NoiseHandshakePayload`
— field 1 (tag 10) and field 2 (tag 18) always, field 4 (tag 34) when
extensions are present. -/
def encode (obj : NoiseHandshakePayload) : List Nat :=
  10 :: lenEnc obj.identityKey
    ++ 18 :: lenEnc obj.identitySig
    ++ (match obj.extensions with
        | none => []
        | some e => 34 :: lenEnc (NoiseExtensions.encode e))

/-- Field loop of the `NoiseHandshakePayload` decoder. -/
def decodeLoop : Nat → List Nat → NoiseHandshakePayload → Option NoiseHandshakePayload
  | _, [], acc => some acc
  | 0, _ :: _, _ => none
  | fuel + 1, b :: rest, acc =>
    match varintDec (b :: rest) with
    | none => none
    | some (tag, r) =>
      if tag = 10 then
        match lenDec r with
        | none => none
        | some (bs, r') => decodeLoop fuel r' { acc with identityKey := bs }
      else if tag = 18 then
        match lenDec r with
        | none => none
        | some (bs, r') => decodeLoop fuel r' { acc with identitySig := bs }
      else if tag = 34 then
        match lenDec r with
        | none => none
        | some (bs, r') =>
          match NoiseExtensions.decode bs with
          | none => none
          | some e => decodeLoop fuel r' { acc with extensions := some e }
      else
        match skipField (tag % 8) r with
        | none => none
        | some r' => decodeLoop fuel r' acc

/-- Modelled from the spec: protobuf decoding of `NoiseHandshakePayload`;
fields may arrive in any order, unknown fields are skipped. -/
def decode (l : List Nat) : Option NoiseHandshakePayload :=
  decodeLoop (l.length + 1) l { identityKey := [], identitySig := [], extensions := none }

end NoiseHandshakePayload


/-! ## Sample data for concrete evaluations -/

/-- A concrete peer identity. -/
def peerA : PeerId := { id := [1] }

/-- A second concrete peer identity. -/
def peerB : PeerId := { id := [2] }

/-- A concrete keypair. -/
def kp0 : KeyPair := { privateKey := [3], publicKey := [4] }

/-- A concrete handshake authentication outcome naming `peerB`. -/
def rawB : RawHandshakeResult := { remoteIdentity := peerB, remoteStaticKey := [9] }

/-- An environment in which the XX pattern succeeds against `peerB` and
the other patterns fail. -/
def worldXXOk : World :=
  { ikOutcome := .error "ik unavailable"
    ikInitialMsg := [5]
    ikEphemeralKeys := kp0
    xxOutcome := .ok rawB
    xxFallbackOutcome := .error "fallback unavailable" }

/-- An environment in which the IK attempt fails to decrypt and the
XXfallback recovery succeeds against `peerB`. -/
def worldIKFail : World :=
  { ikOutcome := .error "ik decrypt failed"
    ikInitialMsg := [5, 6]
    ikEphemeralKeys := kp0
    xxOutcome := .error "xx failed"
    xxFallbackOutcome := .ok rawB }

/-- An environment in which the IK attempt succeeds against `peerB`. -/
def worldIKOk : World :=
  { ikOutcome := .ok rawB
    ikInitialMsg := [7]
    ikEphemeralKeys := kp0
    xxOutcome := .error "xx failed"
    xxFallbackOutcome := .error "fallback failed" }

/-- A Noise instance with noise pipes enabled. -/
def noisePipes : NoiseInstance :=
  { protocol := "/noise", prologue := strBytes "/noise", staticKeys := kp0
    earlyData := [], useNoisePipes := true }

/-- A Noise instance with noise pipes disabled. -/
def noiseNoPipes : NoiseInstance :=
  { protocol := "/noise", prologue := strBytes "/noise", staticKeys := kp0
    earlyData := [], useNoisePipes := false }


/-- The secured result an XX run under `worldXXOk` produces. -/
def resXXSample : SecureOutboundResult :=
  { conn := { handshake := { pattern := .xx, remoteIdentity := peerB,
                             remoteStaticKey := [9], fallback := none } }
    remotePeer := some peerB }

/-! ## Lemmas: codec roundtrips -/

theorem varintDec_enc_append (n : Nat) (rest : List Nat) :
    varintDec (varintEnc n ++ rest) = some (n, rest) := by
  induction n using Nat.strong_induction_on with
  | _ n ih =>
    rw [varintEnc]
    by_cases h : n < 128
    · simp [h, varintDec]
    · rw [dif_neg h]
      simp only [List.cons_append, varintDec, List.append_eq]
      rw [if_neg (by omega)]
      rw [ih (n / 128) (Nat.div_lt_self (by omega) (by omega))]
      have hmod : (n % 128 + 128) % 128 + 128 * (n / 128) = n := by omega
      simp only [Option.some.injEq, Prod.mk.injEq]
      exact ⟨by omega, trivial⟩

theorem lenDec_enc_append (bs rest : List Nat) :
    lenDec (lenEnc bs ++ rest) = some (bs, rest) := by
  unfold lenDec lenEnc
  rw [List.append_assoc, varintDec_enc_append]
  simp only
  rw [if_pos (by simp)]
  rw [List.take_left, List.drop_left]

theorem varintDec_small (b : Nat) (rest : List Nat) (h : b < 128) :
    varintDec (b :: rest) = some (b, rest) := by
  simp [varintDec, h]

theorem extDecodeLoop_enc (items : List (List Nat)) :
    ∀ (fuel : Nat) (acc : List (List Nat)),
      ((items.map fun b => 10 :: lenEnc b).flatten).length ≤ fuel →
      NoiseExtensions.decodeLoop fuel (items.map fun b => 10 :: lenEnc b).flatten acc
        = some { webtransportCerthashes := acc ++ items } := by
  induction items with
  | nil =>
    intro fuel acc _
    simp [NoiseExtensions.decodeLoop]
  | cons i is ih =>
    intro fuel acc hfuel
    simp only [List.map_cons, List.flatten_cons, List.cons_append, List.length_cons,
      List.length_append] at hfuel ⊢
    obtain ⟨f, rfl⟩ : ∃ f, fuel = f + 1 := ⟨fuel - 1, by omega⟩
    rw [NoiseExtensions.decodeLoop]
    rw [varintDec_small 10 _ (by omega)]
    simp only [reduceIte]
    simp only [lenDec_enc_append]
    rw [ih f (acc ++ [i]) (by omega)]
    simp

theorem extensions_decode_encode (x : NoiseExtensions) :
    NoiseExtensions.decode (NoiseExtensions.encode x) = some x := by
  unfold NoiseExtensions.decode NoiseExtensions.encode
  rw [extDecodeLoop_enc x.webtransportCerthashes _ [] (by omega)]
  simp

theorem pLoop_identityKey (f : Nat) (k r' : List Nat) (acc : NoiseHandshakePayload) :
    NoiseHandshakePayload.decodeLoop (f + 1) (10 :: (lenEnc k ++ r')) acc
      = NoiseHandshakePayload.decodeLoop f r' { acc with identityKey := k } := by
  rw [NoiseHandshakePayload.decodeLoop]
  rw [varintDec_small 10 _ (by omega)]
  simp only [reduceIte, lenDec_enc_append]

theorem pLoop_identitySig (f : Nat) (s r' : List Nat) (acc : NoiseHandshakePayload) :
    NoiseHandshakePayload.decodeLoop (f + 1) (18 :: (lenEnc s ++ r')) acc
      = NoiseHandshakePayload.decodeLoop f r' { acc with identitySig := s } := by
  rw [NoiseHandshakePayload.decodeLoop]
  rw [varintDec_small 18 _ (by omega)]
  simp [lenDec_enc_append]

theorem pLoop_extField (f : Nat) (e : NoiseExtensions) (r' : List Nat)
    (acc : NoiseHandshakePayload) :
    NoiseHandshakePayload.decodeLoop (f + 1) (34 :: (lenEnc (NoiseExtensions.encode e) ++ r')) acc
      = NoiseHandshakePayload.decodeLoop f r' { acc with extensions := some e } := by
  rw [NoiseHandshakePayload.decodeLoop]
  rw [varintDec_small 34 _ (by omega)]
  simp [lenDec_enc_append, extensions_decode_encode]

theorem payload_decode_encode (p : NoiseHandshakePayload) :
    NoiseHandshakePayload.decode (NoiseHandshakePayload.encode p) = some p := by
  obtain ⟨k, s, ext⟩ := p
  have main : ∀ fuel : Nat,
      (NoiseHandshakePayload.encode ⟨k, s, ext⟩).length ≤ fuel →
      NoiseHandshakePayload.decodeLoop fuel (NoiseHandshakePayload.encode ⟨k, s, ext⟩)
        { identityKey := [], identitySig := [], extensions := none } = some ⟨k, s, ext⟩ := by
    intro fuel hfuel
    cases ext with
    | none =>
      simp only [NoiseHandshakePayload.encode, List.cons_append, List.append_assoc,
        List.append_nil, List.length_cons, List.length_append] at hfuel ⊢
      obtain ⟨f1, rfl⟩ : ∃ f, fuel = f + 1 := ⟨fuel - 1, by omega⟩
      rw [pLoop_identityKey]
      obtain ⟨f2, rfl⟩ : ∃ f, f1 = f + 1 := ⟨f1 - 1, by omega⟩
      rw [show (lenEnc s : List Nat) = lenEnc s ++ [] by simp]
      rw [pLoop_identitySig]
      rw [NoiseHandshakePayload.decodeLoop]
    | some e =>
      simp only [NoiseHandshakePayload.encode, List.cons_append, List.append_assoc,
        List.length_cons, List.length_append] at hfuel ⊢
      obtain ⟨f1, rfl⟩ : ∃ f, fuel = f + 1 := ⟨fuel - 1, by omega⟩
      rw [pLoop_identityKey]
      obtain ⟨f2, rfl⟩ : ∃ f, f1 = f + 1 := ⟨f1 - 1, by omega⟩
      rw [pLoop_identitySig]
      obtain ⟨f3, rfl⟩ : ∃ f, f2 = f + 1 := ⟨f2 - 1, by omega⟩
      rw [show (lenEnc (NoiseExtensions.encode e) : List Nat)
            = lenEnc (NoiseExtensions.encode e) ++ [] by simp]
      rw [pLoop_extField]
      rw [NoiseHandshakePayload.decodeLoop]
  exact main _ (by omega)

/-! ## Lemmas: handshake driver -/

theorem checkRemoteIdentity_ok {expected : PeerId} {r r' : RawHandshakeResult}
    (h : checkRemoteIdentity expected r = .ok r') : r'.remoteIdentity = expected := by
  unfold checkRemoteIdentity at h
  split at h
  · cases h; assumption
  · cases h

theorem runIKStages_ok {w : World} {p : PeerId} {r : RawHandshakeResult}
    (h : runIKStages w p = .ok r) : r.remoteIdentity = p := by
  unfold runIKStages at h
  split at h
  · cases h
  · split at h
    · cases h
    · cases h
      next heq => exact checkRemoteIdentity_ok heq

theorem runXXStages_ok {w : World} {p : PeerId} {r : RawHandshakeResult}
    (h : runXXStages w p = .ok r) : r.remoteIdentity = p := by
  unfold runXXStages at h
  split at h
  · cases h
  · exact checkRemoteIdentity_ok h

theorem runXXFallbackStages_ok {w : World} {p : PeerId} {r : RawHandshakeResult}
    (h : runXXFallbackStages w p = .ok r) : r.remoteIdentity = p := by
  unfold runXXFallbackStages at h
  split at h
  · cases h
  · exact checkRemoteIdentity_ok h

theorem performXXFallbackHandshake_ok {w : World} {ini : Bool} {rp : PeerId}
    {payload : SignedPayload} {msg : Bytes} {eph : Option KeyPair} {hs : HandshakeResult}
    (h : performXXFallbackHandshake w ini rp payload msg eph = .ok hs) :
    hs.remoteIdentity = rp ∧ hs.pattern = .xxFallback ∧
      hs.fallback = some { initialMsg := msg, ephemeralKeys := eph } := by
  unfold performXXFallbackHandshake at h
  split at h
  · next r heq =>
      cases h
      exact ⟨runXXFallbackStages_ok heq, rfl, rfl⟩
  · cases h

theorem performXXHandshake_ok {w : World} {n : NoiseInstance} {cache : Keycache.Storage}
    {rp : PeerId} {payload : SignedPayload} {hs : HandshakeResult}
    (h : (performXXHandshake w n cache rp payload).1 = .ok hs) :
    hs.remoteIdentity = rp ∧ hs.pattern = .xx ∧
      (performXXHandshake w n cache rp payload).2
        = (if n.useNoisePipes then Keycache.store cache rp hs.remoteStaticKey else cache) := by
  unfold performXXHandshake at h ⊢
  split at h
  · next r heq =>
      cases h
      exact ⟨runXXStages_ok heq, rfl, by simp⟩
  · cases h

theorem performHandshake_no_remote (n : NoiseInstance) (w : World)
    (cache : Keycache.Storage) (l : PeerId) (ini : Bool) :
    performHandshake n w cache { isInitiator := ini, localPeer := l, remotePeer := none }
      = (.error .typeErrorUndefinedRemote, cache, []) := rfl

theorem performHandshake_xx_branch {n : NoiseInstance} {cache : Keycache.Storage}
    {rp : PeerId} (w : World) (l : PeerId) (ini : Bool)
    (h : n.useNoisePipes = false ∨ (ini = true ∧ Keycache.load cache rp = none)) :
    performHandshake n w cache { isInitiator := ini, localPeer := l, remotePeer := some rp }
      = ((performXXHandshake w n cache rp (getPayload l n.staticKeys.publicKey n.earlyData)).1,
         (performXXHandshake w n cache rp (getPayload l n.staticKeys.publicKey n.earlyData)).2,
         [.xx]) := by
  rcases h with h | ⟨hi, hl⟩
  · simp [performHandshake, h]
  · cases hpipes : n.useNoisePipes with
    | false => simp [performHandshake, hpipes]
    | true => simp [performHandshake, hpipes, hi, hl]

theorem performHandshake_responder_uninit {n : NoiseInstance} {cache : Keycache.Storage}
    {rp : PeerId} (w : World) (l : PeerId)
    (hpipes : n.useNoisePipes = true) (hl : Keycache.load cache rp = none) :
    performHandshake n w cache { isInitiator := false, localPeer := l, remotePeer := some rp }
      = (.error .remoteStaticKeyUninitialized, cache, []) := by
  simp [performHandshake, hpipes, hl]

theorem performHandshake_ik_branch {n : NoiseInstance} {cache : Keycache.Storage}
    {rp : PeerId} {k : Bytes} (w : World) (l : PeerId) (ini : Bool)
    (hpipes : n.useNoisePipes = true) (hl : Keycache.load cache rp = some k) :
    performHandshake n w cache { isInitiator := ini, localPeer := l, remotePeer := some rp }
      = (match performIKHandshake w rp with
         | .ok r =>
           (.ok { pattern := .ik, remoteIdentity := r.remoteIdentity,
                  remoteStaticKey := r.remoteStaticKey, fallback := none }, cache, [.ik])
         | .error f =>
           (performXXFallbackHandshake w ini rp
              (getPayload l n.staticKeys.publicKey n.earlyData) f.initialMsg
              (if ini then some w.ikEphemeralKeys else none), cache, [.ik, .xxFallback])) := by
  simp [performHandshake, hpipes, hl]

theorem performHandshake_ok_remoteIdentity {n : NoiseInstance} {w : World}
    {cache : Keycache.Storage} {params : HandshakeParams} {hs : HandshakeResult}
    (h : (performHandshake n w cache params).1 = .ok hs) :
    params.remotePeer = some hs.remoteIdentity := by
  obtain ⟨ini, l, rpOpt⟩ := params
  cases rpOpt with
  | none => rw [performHandshake_no_remote] at h; cases h
  | some rp =>
    cases hpipes : n.useNoisePipes with
    | false =>
      rw [performHandshake_xx_branch w l ini (Or.inl hpipes)] at h
      simp only at h
      rw [(performXXHandshake_ok h).1]
    | true =>
      cases hload : Keycache.load cache rp with
      | none =>
        cases ini with
        | false => rw [performHandshake_responder_uninit w l hpipes hload] at h; cases h
        | true =>
          rw [performHandshake_xx_branch w l true (Or.inr ⟨rfl, hload⟩)] at h
          simp only at h
          rw [(performXXHandshake_ok h).1]
      | some k =>
        rw [performHandshake_ik_branch w l ini hpipes hload] at h
        split at h
        · next r heq =>
            simp only at h
            cases h
            unfold performIKHandshake at heq
            rw [runIKStages_ok heq]
        · next f heq =>
            simp only at h
            rw [(performXXFallbackHandshake_ok h).1]

/-! ## Claims -/

/-- C1: for every `secureOutbound` or `secureInbound` call that returns,
the `remotePeer` field of the returned record is the identity the
handshake authenticated, and a caller-supplied remote identity that
differs from the authenticated one makes the call fail instead of
returning a secured duplex. -/
theorem secure_remote_peer_is_authenticated
    (n : NoiseInstance) (w : World) (cache : Keycache.Storage)
    (localPeer : PeerId) (remotePeer : Option PeerId) (res : SecureOutboundResult)
    (h : (secureOutbound n w cache localPeer remotePeer).1 = .ok res ∨
         (secureInbound n w cache localPeer remotePeer).1 = .ok res) :
    res.remotePeer = some res.conn.handshake.remoteIdentity ∧
      ∀ rp, remotePeer = some rp → rp = res.conn.handshake.remoteIdentity := by
  rcases h with h | h
  · simp only [secureOutbound] at h
    cases hph : (performHandshake n w cache
        { isInitiator := true, localPeer := localPeer, remotePeer := remotePeer }).1 with
    | ok hs =>
      rw [hph] at h
      simp only at h
      cases Except.ok.inj h
      have hid := performHandshake_ok_remoteIdentity hph
      refine ⟨hid, ?_⟩
      intro rp hrp
      rw [hrp] at hid
      exact Option.some.inj hid
    | error e =>
      rw [hph] at h
      simp only at h
      cases h
  · simp only [secureInbound] at h
    cases hph : (performHandshake n w cache
        { isInitiator := false, localPeer := localPeer, remotePeer := remotePeer }).1 with
    | ok hs =>
      rw [hph] at h
      simp only at h
      cases Except.ok.inj h
      have hid := performHandshake_ok_remoteIdentity hph
      refine ⟨hid, ?_⟩
      intro rp hrp
      rw [hrp] at hid
      exact Option.some.inj hid
    | error e =>
      rw [hph] at h
      simp only at h
      cases h

/-- Witness for C1: a concrete secureOutbound run that succeeds and whose
returned remotePeer is the authenticated identity. -/
theorem secure_remote_peer_is_authenticated_witness :
    (secureOutbound noiseNoPipes worldXXOk Keycache.initialStorage peerA (some peerB)).1
      = .ok resXXSample ∧
    resXXSample.remotePeer = some resXXSample.conn.handshake.remoteIdentity :=
  ⟨by decide,
    (secure_remote_peer_is_authenticated noiseNoPipes worldXXOk Keycache.initialStorage
      peerA (some peerB) resXXSample (Or.inl (by decide))).1⟩

/-- C2 (evaluation of the code at the failing input): a responder with
noise pipes enabled and no cached static key for the remote peer fails
with "Remote static key should be initialized." without attempting any
pattern — even in an environment where the IK stages would succeed. -/
theorem responder_cache_miss_fails_before_ik :
    (performHandshake noisePipes worldIKOk Keycache.initialStorage
        { isInitiator := false, localPeer := peerA, remotePeer := some peerB }).1
      = .error .remoteStaticKeyUninitialized ∧
    (performHandshake noisePipes worldIKOk Keycache.initialStorage
        { isInitiator := false, localPeer := peerA, remotePeer := some peerB }).2.2
      = [] := by
  decide

/-- C3: an initiator with noise pipes enabled and no cached key for the
remote peer runs the XX pattern directly; the cache miss is never
surfaced — any error of the call is a wrapped XX handshake error. -/
theorem initiator_cache_miss_runs_xx
    (n : NoiseInstance) (w : World) (cache : Keycache.Storage) (l rp : PeerId)
    (hpipes : n.useNoisePipes = true) (hmiss : Keycache.load cache rp = none) :
    performHandshake n w cache { isInitiator := true, localPeer := l, remotePeer := some rp }
      = ((performXXHandshake w n cache rp (getPayload l n.staticKeys.publicKey n.earlyData)).1,
         (performXXHandshake w n cache rp (getPayload l n.staticKeys.publicKey n.earlyData)).2,
         [.xx]) ∧
    ∀ e, (performHandshake n w cache
            { isInitiator := true, localPeer := l, remotePeer := some rp }).1 = .error e →
         ∃ m, e = .xxHandshakeFailed m := by
  have hb := @performHandshake_xx_branch n cache rp w l true (Or.inr ⟨rfl, hmiss⟩)
  refine ⟨hb, ?_⟩
  intro e he
  rw [hb] at he
  simp only at he
  unfold performXXHandshake at he
  split at he
  · simp only at he; cases he
  · next m heq =>
      simp only at he
      exact ⟨"Error occurred during XX handshake: " ++ m, (Except.error.inj he).symm⟩

/-- Witness for C3: concrete initiator dispatch on an empty cache runs XX. -/
theorem initiator_cache_miss_runs_xx_witness :
    Keycache.load Keycache.initialStorage peerB = none ∧
    (performHandshake noisePipes worldXXOk Keycache.initialStorage
        { isInitiator := true, localPeer := peerA, remotePeer := some peerB }).2.2
      = [.xx] := by
  have h := initiator_cache_miss_runs_xx noisePipes worldXXOk Keycache.initialStorage
      peerA peerB rfl rfl
  exact ⟨rfl, by rw [h.1]⟩

/-- C4: with `useNoisePipes=false` every handshake runs only the XX
pattern — IK is never attempted and XXfallback is never entered. -/
theorem no_pipes_always_xx
    (n : NoiseInstance) (w : World) (cache : Keycache.Storage) (params : HandshakeParams)
    (h : n.useNoisePipes = false) :
    NoisePattern.ik ∉ (performHandshake n w cache params).2.2 ∧
    NoisePattern.xxFallback ∉ (performHandshake n w cache params).2.2 ∧
    ∀ rp, params.remotePeer = some rp →
      performHandshake n w cache params
        = ((performXXHandshake w n cache rp
              (getPayload params.localPeer n.staticKeys.publicKey n.earlyData)).1,
           (performXXHandshake w n cache rp
              (getPayload params.localPeer n.staticKeys.publicKey n.earlyData)).2,
           [.xx]) := by
  obtain ⟨ini, l, rpOpt⟩ := params
  cases rpOpt with
  | none =>
    refine ⟨?_, ?_, ?_⟩
    · rw [performHandshake_no_remote]; simp
    · rw [performHandshake_no_remote]; simp
    · intro rp hrp; cases hrp
  | some rp =>
    have hb := @performHandshake_xx_branch n cache rp w l ini (Or.inl h)
    refine ⟨?_, ?_, ?_⟩
    · rw [hb]; simp
    · rw [hb]; simp
    · intro rp' hrp'
      cases hrp'
      exact hb

/-- Witness for C4: with pipes disabled, a concrete responder handshake in
an IK-friendly environment still never attempts IK. -/
theorem no_pipes_always_xx_witness :
    noiseNoPipes.useNoisePipes = false ∧
    NoisePattern.ik ∉ (performHandshake noiseNoPipes worldIKOk Keycache.initialStorage
        { isInitiator := false, localPeer := peerA, remotePeer := some peerB }).2.2 :=
  ⟨rfl, (no_pipes_always_xx noiseNoPipes worldIKOk Keycache.initialStorage
      { isInitiator := false, localPeer := peerA, remotePeer := some peerB } rfl).1⟩

/-- C5: a successful XX handshake with noise pipes enabled stores the
remote static key in the cache keyed by the remote peer, so a subsequent
initiator dispatch to that peer finds the cached key and selects IK. -/
theorem xx_success_primes_cache_for_ik
    (n : NoiseInstance) (w : World) (cache : Keycache.Storage) (rp : PeerId)
    (payload : SignedPayload) (hs : HandshakeResult)
    (hpipes : n.useNoisePipes = true)
    (hok : (performXXHandshake w n cache rp payload).1 = .ok hs) :
    (performXXHandshake w n cache rp payload).2
        = Keycache.store cache rp hs.remoteStaticKey ∧
    Keycache.load (performXXHandshake w n cache rp payload).2 rp
        = some hs.remoteStaticKey ∧
    ∀ (n₂ : NoiseInstance) (w₂ : World) (l₂ : PeerId), n₂.useNoisePipes = true →
      ((performHandshake n₂ w₂ (performXXHandshake w n cache rp payload).2
          { isInitiator := true, localPeer := l₂, remotePeer := some rp }).2.2).head?
        = some NoisePattern.ik := by
  have h3 := (performXXHandshake_ok hok).2.2
  rw [hpipes] at h3
  simp only [if_pos] at h3
  have hload : Keycache.load (performXXHandshake w n cache rp payload).2 rp
      = some hs.remoteStaticKey := by
    rw [h3]
    simp [Keycache.load, Keycache.store]
  refine ⟨h3, hload, ?_⟩
  intro n₂ w₂ l₂ hp₂
  have hb := @performHandshake_ik_branch n₂ (performXXHandshake w n cache rp payload).2 rp
      hs.remoteStaticKey w₂ l₂ true hp₂ hload
  rw [hb]
  cases hik : performIKHandshake w₂ rp with
  | ok r => rfl
  | error f => rfl

/-- Witness for C5: a concrete XX success against peerB caches its static
key under peerB. -/
theorem xx_success_primes_cache_for_ik_witness :
    (performXXHandshake worldXXOk noisePipes Keycache.initialStorage peerB
        (getPayload peerA kp0.publicKey [])).1
      = .ok { pattern := .xx, remoteIdentity := peerB, remoteStaticKey := [9], fallback := none } ∧
    Keycache.load (performXXHandshake worldXXOk noisePipes Keycache.initialStorage peerB
        (getPayload peerA kp0.publicKey [])).2 peerB = some [9] := by
  refine ⟨by decide, ?_⟩
  have h := xx_success_primes_cache_for_ik noisePipes worldXXOk Keycache.initialStorage peerB
      (getPayload peerA kp0.publicKey [])
      { pattern := .xx, remoteIdentity := peerB, remoteStaticKey := [9], fallback := none }
      rfl (by decide)
  exact h.2.1

/-- C6: when an IK attempt fails, the driver recovers exactly once by an
XXfallback constructed from the failed attempt's initial message bytes
and, on the initiator side, that attempt's ephemeral keys; an XXfallback
failure is surfaced to the caller with no further fallback attempted. -/
theorem ik_failure_single_fallback
    (n : NoiseInstance) (w : World) (cache : Keycache.Storage) (l rp : PeerId)
    (ini : Bool) (k : Bytes) (f : IKFailureData)
    (hpipes : n.useNoisePipes = true)
    (hhit : Keycache.load cache rp = some k)
    (hfail : performIKHandshake w rp = .error f) :
    performHandshake n w cache { isInitiator := ini, localPeer := l, remotePeer := some rp }
      = (performXXFallbackHandshake w ini rp
           (getPayload l n.staticKeys.publicKey n.earlyData) f.initialMsg
           (if ini then some w.ikEphemeralKeys else none), cache, [.ik, .xxFallback]) ∧
    (∀ hs, performXXFallbackHandshake w ini rp
             (getPayload l n.staticKeys.publicKey n.earlyData) f.initialMsg
             (if ini then some w.ikEphemeralKeys else none) = .ok hs →
       hs.fallback = some { initialMsg := f.initialMsg,
                            ephemeralKeys := if ini then some w.ikEphemeralKeys else none }) ∧
    (∀ m, runXXFallbackStages w rp = .error m →
       (performHandshake n w cache
           { isInitiator := ini, localPeer := l, remotePeer := some rp }).1
         = .error (.xxFallbackFailed ("Error occurred during XX Fallback handshake: " ++ m))) := by
  have hb := @performHandshake_ik_branch n cache rp k w l ini hpipes hhit
  have hb2 : performHandshake n w cache
      { isInitiator := ini, localPeer := l, remotePeer := some rp }
      = (performXXFallbackHandshake w ini rp
           (getPayload l n.staticKeys.publicKey n.earlyData) f.initialMsg
           (if ini then some w.ikEphemeralKeys else none), cache, [.ik, .xxFallback]) := by
    rw [hb, hfail]
  refine ⟨hb2, ?_, ?_⟩
  · intro hs h
    exact (performXXFallbackHandshake_ok h).2.2
  · intro m hm
    rw [hb2]
    simp only
    unfold performXXFallbackHandshake
    rw [hm]

/-- Witness for C6: a concrete failed IK attempt recovers through a single
XXfallback. -/
theorem ik_failure_single_fallback_witness :
    performIKHandshake worldIKFail peerB
      = .error { message := "ik decrypt failed", initialMsg := [5, 6] } ∧
    (performHandshake noisePipes worldIKFail
        (Keycache.store Keycache.initialStorage peerB [9])
        { isInitiator := true, localPeer := peerA, remotePeer := some peerB }).2.2
      = [.ik, .xxFallback] := by
  refine ⟨by decide, ?_⟩
  have h := ik_failure_single_fallback noisePipes worldIKFail
      (Keycache.store Keycache.initialStorage peerB [9]) peerA peerB true [9]
      { message := "ik decrypt failed", initialMsg := [5, 6] } rfl (by decide) (by decide)
  rw [h.1]

/-- C7: constructor behaviour — a provided static noise key is kept as the
private key with the public key derived from it by X25519 base-point
scalar multiplication; without one a fresh keypair is generated; and
`useNoisePipes` defaults to true when omitted. -/
theorem noise_constructor_keys_and_default
    (k : Bytes) (sk : Option Bytes) (ed : Option Bytes) (up : Option Bool) (entropy : Bytes) :
    (mkNoise (some k) ed up entropy).staticKeys.privateKey = k ∧
    (mkNoise (some k) ed up entropy).staticKeys.publicKey = x25519PublicKeyCreate k ∧
    (mkNoise none ed up entropy).staticKeys = generateKeypair entropy ∧
    (generateKeypair entropy).publicKey
      = x25519PublicKeyCreate (generateKeypair entropy).privateKey ∧
    (mkNoise sk ed none entropy).useNoisePipes = true :=
  ⟨rfl, rfl, rfl, rfl, rfl⟩

/-- C8 (evaluation of the code at the failing input): `secureInbound` with
the remote identity omitted fails with the TypeError raised when
`KeyCache.load` dereferences the missing argument, before any pattern is
attempted. -/
theorem secure_inbound_missing_remote_fails
    (n : NoiseInstance) (w : World) (cache : Keycache.Storage) (l : PeerId) :
    (secureInbound n w cache l none).1 = .error .typeErrorUndefinedRemote ∧
    (performHandshake n w cache
        { isInitiator := false, localPeer := l, remotePeer := none }).2.2 = [] :=
  ⟨rfl, rfl⟩

/-- C9: decoding the encoding is the identity, both for the handshake
payload message and for the extensions message. -/
theorem codec_roundtrip :
    (∀ p : NoiseHandshakePayload,
      NoiseHandshakePayload.decode (NoiseHandshakePayload.encode p) = some p) ∧
    (∀ x : NoiseExtensions,
      NoiseExtensions.decode (NoiseExtensions.encode x) = some x) :=
  ⟨payload_decode_encode, extensions_decode_encode⟩

/-- C10: key-cache laws — store-then-load returns the stored key, a second
store to the same peer overwrites the first, storing does not affect other
peers, a never-stored peer loads as undefined, and resetStorage clears
every entry. -/
theorem keycache_laws
    (st : Keycache.Storage) (p q : PeerId) (k k' : Bytes) :
    Keycache.load (Keycache.store st p k) p = some k ∧
    Keycache.load (Keycache.store (Keycache.store st p k') p k) p = some k ∧
    (p.id ≠ q.id → Keycache.load (Keycache.store st p k) q = Keycache.load st q) ∧
    Keycache.load Keycache.initialStorage q = none ∧
    Keycache.load (Keycache.resetStorage st) q = none := by
  refine ⟨?_, ?_, ?_, rfl, rfl⟩
  · simp [Keycache.load, Keycache.store]
  · simp [Keycache.load, Keycache.store]
  · intro hne
    simp only [Keycache.load, Keycache.store]
    rw [if_neg (fun h => hne h.symm)]

/-- Witness for C10 at concrete peers: storing under peerA leaves peerB
unaffected. -/
theorem keycache_laws_witness :
    peerA.id ≠ peerB.id ∧
    Keycache.load (Keycache.store Keycache.initialStorage peerA [9]) peerB
      = Keycache.load Keycache.initialStorage peerB :=
  ⟨by decide, (keycache_laws Keycache.initialStorage peerA peerB [9] [8]).2.2.1 (by decide)⟩
